import Mathlib

/-!
Shallow embedding of the offline-first synchronization engine of the POS-mobile
repository (src/services/sync.ts, bundled in src/types/api.types.ts).

The mutation queue (`sync_queue` table), the local entity tables
(`categories`, `items`, `bills`), the AsyncStorage-backed sync history and the
per-kind sync functions (`syncCategories`, `syncItems`, `syncBills`,
`syncAll`, `saveSyncToHistory`, `markOperationSynced`, `updateRetryCount`,
`getPendingOperations`) are translated directly from the source.

Timestamps (ISO strings in the source, ordered lexicographically which agrees
with chronological order) are modelled as naturals.  SQL tables are modelled
as lists of rows in insertion (rowid) order; `ORDER BY created_at ASC` is
modelled by insertion sort on the `created_at` column.  The remote HTTP API is
modelled by an oracle argument: `none` means the call throws (timeout / HTTP
error), `some r` means it returns response `r`.  Each sync function
additionally returns the list of observable events it performed (remote
calls, queue reads, markSynced writes), used for the temporal claims.
-/

namespace POSSync

/-- Entity kinds handled by the sync engine (`entity_type` column values). -/
inductive Kind where
  | category
  | item
  | bill
  deriving DecidableEq, Repr

/-- One row of the `sync_queue` table (see `queueOperation` in sync.ts). -/
structure QueueRow where
  id : Nat
  operation_type : String
  entity_type : String
  entity_id : String
  data : String
  timestamp : Nat
  retry_count : Nat
  synced : Nat
  synced_at : Option Nat
  last_error : Option String
  created_at : Nat
  deriving DecidableEq, Repr

/-- One row of the local `categories` table (fields touched by sync). -/
structure CatRow where
  id : String
  is_synced : Nat
  server_updated_at : Option Nat
  updated_at : Nat
  deriving DecidableEq, Repr

/-- One row of the local `items` table (fields touched by sync). -/
structure ItemRow where
  id : String
  is_synced : Nat
  server_updated_at : Option Nat
  image_url : Option String
  updated_at : Nat
  deriving DecidableEq, Repr

/-- One row of the local `bills` table (fields touched by sync; the remaining
columns are opaque payload). -/
structure BillRow where
  id : String
  payload : String
  is_synced : Nat
  created_at : Nat
  deriving DecidableEq, Repr

/-- One `{ name, count }` element in a stored history entry. -/
structure HistoryItem where
  name : String
  count : Nat
  deriving DecidableEq, Repr

/-- One stored entry of the `sync_history` AsyncStorage value
(see `saveSyncToHistory`). -/
structure HistoryEntry where
  id : Nat
  timestamp : Nat
  items : List HistoryItem
  deriving DecidableEq, Repr

/-- A category snapshot returned by the remote categories sync call. -/
structure CatSnap where
  id : String
  updated_at : Nat
  deriving DecidableEq, Repr

/-- An item snapshot returned by the remote items sync call. -/
structure ItemSnap where
  id : String
  last_updated : Nat
  image_url : Option String
  deriving DecidableEq, Repr

/-- Response of `API.categories.sync`. -/
structure CatResp where
  synced : Nat
  categories : List CatSnap
  deriving DecidableEq, Repr

/-- Response of `API.items.sync`. -/
structure ItemResp where
  synced : Nat
  items : List ItemSnap
  deriving DecidableEq, Repr

/-- Response of `API.bills.sync`. -/
structure BillResp where
  synced : Nat
  deriving DecidableEq, Repr

/-- The full local state touched by the sync engine: the mutation queue, the
three entity tables, the history log, the last-sync-time scalar and the
stored user session (`getUserData`, presence only). -/
structure SyncState where
  sync_queue : List QueueRow
  categories : List CatRow
  items : List ItemRow
  bills : List BillRow
  sync_history : List HistoryEntry
  last_sync_time : Option Nat
  userData : Option String
  deriving DecidableEq, Repr

/-- Result of one per-kind sync function. -/
structure KindResult where
  success : Bool
  synced : Nat
  deriving DecidableEq, Repr

/-- Result of `syncAll`. -/
structure AllResult where
  success : Bool
  categoriesSynced : Nat
  itemsSynced : Nat
  billsSynced : Nat
  deriving DecidableEq, Repr

/-- Observable events of a sync pass: queue drain queries, the bills-table
read, remote calls and `markOperationSynced` writes. -/
inductive Ev where
  | queryQueue (k : Kind)
  | readBills
  | remoteCall (k : Kind)
  | markSynced (op : QueueRow)
  deriving DecidableEq, Repr

/-- Ordering used by `ORDER BY created_at ASC` on the queue. -/
def rowLE (a b : QueueRow) : Prop := a.created_at ≤ b.created_at

instance : DecidableRel rowLE := fun a b => Nat.decLe a.created_at b.created_at

instance : IsTotal QueueRow rowLE := ⟨fun a b => Nat.le_total a.created_at b.created_at⟩

instance : IsTrans QueueRow rowLE := ⟨fun _ _ _ h h2 => Nat.le_trans h h2⟩

/-- Ordering used by `ORDER BY created_at ASC` on the bills table. -/
def billLE (a b : BillRow) : Prop := a.created_at ≤ b.created_at

instance : DecidableRel billLE := fun a b => Nat.decLe a.created_at b.created_at

instance : IsTotal BillRow billLE := ⟨fun a b => Nat.le_total a.created_at b.created_at⟩

instance : IsTrans BillRow billLE := ⟨fun _ _ _ h h2 => Nat.le_trans h h2⟩

/-- `SELECT * FROM sync_queue WHERE entity_type = k AND synced = 0 ORDER BY
created_at ASC` — the per-kind drain query of `syncCategories` / `syncItems`. -/
def pendingOps (k : String) (q : List QueueRow) : List QueueRow :=
  (q.filter (fun r => r.entity_type == k && r.synced == 0)).insertionSort rowLE

/-- `SELECT * FROM sync_queue WHERE synced = 0 ORDER BY created_at ASC` —
the body of `getPendingOperations` (note: no entity-kind filter). -/
def getPendingOperations (q : List QueueRow) : List QueueRow :=
  (q.filter (fun r => r.synced == 0)).insertionSort rowLE

/-- Effect of `markOperationSynced` on one matching row:
`SET synced = 1, synced_at = now`. -/
def markRow (now : Nat) (r : QueueRow) : QueueRow :=
  { r with synced := 1, synced_at := some now }

/-- `UPDATE sync_queue SET synced = 1, synced_at = ? WHERE id = ?`. -/
def markOperationSynced (now : Nat) (operationId : Nat) (q : List QueueRow) :
    List QueueRow :=
  q.map (fun r => if r.id = operationId then markRow now r else r)

/-- `UPDATE sync_queue SET retry_count = retry_count + 1, last_error = ?
WHERE id = ?` — the body of `updateRetryCount`. -/
def updateRetryCount (operationId : Nat) (err : String) (q : List QueueRow) :
    List QueueRow :=
  q.map (fun r =>
    if r.id = operationId then
      { r with retry_count := r.retry_count + 1, last_error := some err }
    else r)

/-- `UPDATE categories SET is_synced = 1, server_updated_at = ?, updated_at = ?
WHERE id = ?` for one returned snapshot. -/
def applyCategorySnapshot (now : Nat) (c : CatSnap) (t : List CatRow) :
    List CatRow :=
  t.map (fun row =>
    if row.id = c.id then
      { row with is_synced := 1, server_updated_at := some c.updated_at,
                 updated_at := now }
    else row)

/-- The snapshot-application loop of `syncCategories`. -/
def applyCategorySnapshots (now : Nat) (cs : List CatSnap) (t : List CatRow) :
    List CatRow :=
  cs.foldl (fun t c => applyCategorySnapshot now c t) t

/-- `UPDATE items SET is_synced = 1, server_updated_at = ?, image_url = ?,
updated_at = ? WHERE id = ?` for one returned snapshot. -/
def applyItemSnapshot (now : Nat) (it : ItemSnap) (t : List ItemRow) :
    List ItemRow :=
  t.map (fun row =>
    if row.id = it.id then
      { row with is_synced := 1, server_updated_at := some it.last_updated,
                 image_url := it.image_url, updated_at := now }
    else row)

/-- The snapshot-application loop of `syncItems`. -/
def applyItemSnapshots (now : Nat) (its : List ItemSnap) (t : List ItemRow) :
    List ItemRow :=
  its.foldl (fun t it => applyItemSnapshot now it t) t

/-- The `for (const op of operations) await markOperationSynced(op.id)` loop. -/
def markAll (now : Nat) (ops : List QueueRow) (q : List QueueRow) :
    List QueueRow :=
  ops.foldl (fun q op => markOperationSynced now op.id q) q

/-- `syncCategories` (sync.ts lines 601-646).  The remote oracle `resp` is
`none` when `API.categories.sync` throws. -/
def syncCategories (now : Nat) (resp : Option CatResp) (s : SyncState) :
    KindResult × SyncState × List Ev :=
  let operations := pendingOps "category" s.sync_queue
  if operations.isEmpty then
    (⟨true, 0⟩, s, [Ev.queryQueue Kind.category])
  else
    match resp with
    | none =>
      (⟨false, 0⟩, s, [Ev.queryQueue Kind.category, Ev.remoteCall Kind.category])
    | some r =>
      let q1 := markAll now operations s.sync_queue
      let cats :=
        if r.categories.isEmpty then s.categories
        else applyCategorySnapshots now r.categories s.categories
      (⟨true, operations.length⟩,
        { s with sync_queue := q1, categories := cats },
        [Ev.queryQueue Kind.category, Ev.remoteCall Kind.category] ++
          operations.map Ev.markSynced)

/-- `syncItems` (sync.ts lines 648-693). -/
def syncItems (now : Nat) (resp : Option ItemResp) (s : SyncState) :
    KindResult × SyncState × List Ev :=
  let operations := pendingOps "item" s.sync_queue
  if operations.isEmpty then
    (⟨true, 0⟩, s, [Ev.queryQueue Kind.item])
  else
    match resp with
    | none =>
      (⟨false, 0⟩, s, [Ev.queryQueue Kind.item, Ev.remoteCall Kind.item])
    | some r =>
      let q1 := markAll now operations s.sync_queue
      let its :=
        if r.items.isEmpty then s.items
        else applyItemSnapshots now r.items s.items
      (⟨true, operations.length⟩,
        { s with sync_queue := q1, items := its },
        [Ev.queryQueue Kind.item, Ev.remoteCall Kind.item] ++
          operations.map Ev.markSynced)

/-- `SELECT * FROM bills WHERE is_synced = 0 ORDER BY created_at ASC LIMIT 50`
— the drain query of `syncBills`. -/
def billBatch (bs : List BillRow) : List BillRow :=
  ((bs.filter (fun b => b.is_synced == 0)).insertionSort billLE).take 50

/-- `syncBills` (sync.ts lines 695-748).  Returns `{ success: false }` when no
user session is stored, before touching the bills table or the network. -/
def syncBills (_now : Nat) (resp : Option BillResp) (s : SyncState) :
    KindResult × SyncState × List Ev :=
  match s.userData with
  | none => (⟨false, 0⟩, s, [])
  | some _ =>
    let bills := billBatch s.bills
    if bills.isEmpty then
      (⟨true, 0⟩, s, [Ev.readBills])
    else
      match resp with
      | none => (⟨false, 0⟩, s, [Ev.readBills, Ev.remoteCall Kind.bill])
      | some _ =>
        let ids := bills.map (fun b => b.id)
        (⟨true, bills.length⟩,
          { s with bills := s.bills.map (fun b =>
              if ids.contains b.id then { b with is_synced := 1 } else b) },
          [Ev.readBills, Ev.remoteCall Kind.bill])

/-- The history entry built by `saveSyncToHistory`: zero-count kinds are
filtered out before the entry is stored. -/
def historyEntry (now categoriesSynced itemsSynced billsSynced : Nat) :
    HistoryEntry :=
  ⟨now, now,
    ([⟨"Categories", categoriesSynced⟩, ⟨"Items", itemsSynced⟩,
      ⟨"Bills", billsSynced⟩] : List HistoryItem).filter
        (fun it => decide (0 < it.count))⟩

/-- `saveSyncToHistory` (sync.ts lines 488-529): unshift the new entry, then
keep only the first 20 entries. -/
def saveSyncToHistory (now categoriesSynced itemsSynced billsSynced : Nat)
    (history : List HistoryEntry) : List HistoryEntry :=
  if 20 <
      (historyEntry now categoriesSynced itemsSynced billsSynced ::
        history).length then
    (historyEntry now categoriesSynced itemsSynced billsSynced ::
      history).take 20
  else historyEntry now categoriesSynced itemsSynced billsSynced :: history

/-- `syncAll` (sync.ts lines 750-792).  `online` is the value returned by
`getNetworkStatus()`; the three oracles model the per-kind remote calls. -/
def syncAll (online : Bool) (now : Nat) (rc : Option CatResp)
    (ri : Option ItemResp) (rb : Option BillResp) (s : SyncState) :
    AllResult × SyncState × List Ev :=
  if online = false then
    (⟨false, 0, 0, 0⟩, s, [])
  else
    let c := syncCategories now rc s
    let i := syncItems now ri c.2.1
    let b := syncBills now rb i.2.1
    let success := c.1.success && i.1.success && b.1.success
    let s3 := b.2.1
    let s4 :=
      if success &&
          (decide (0 < c.1.synced) || decide (0 < i.1.synced) ||
            decide (0 < b.1.synced)) then
        { s3 with
          sync_history :=
            saveSyncToHistory now c.1.synced i.1.synced b.1.synced
              s3.sync_history,
          last_sync_time := some now }
      else s3
    (⟨success, c.1.synced, i.1.synced, b.1.synced⟩, s4,
      c.2.2 ++ i.2.2 ++ b.2.2)

/-- C1: if the connectivity check reports offline, `syncAll` returns
immediately with the skipped-pass result `{ success: false, 0, 0, 0 }` and
performs no work at all: the queue rows, the history log, every synced flag
and all other state are exactly as before the call, and no event (no query,
no remote call, no write) is performed. -/
theorem C1_offline_noop (now : Nat) (rc : Option CatResp) (ri : Option ItemResp)
    (rb : Option BillResp) (s : SyncState) :
    syncAll false now rc ri rb s = (⟨false, 0, 0, 0⟩, s, []) := rfl

/-- A concrete queue row used by several concrete evaluations. -/
def exRow (i : Nat) (kind : String) (created : Nat) : QueueRow :=
  ⟨i, "create", kind, String.append "e" (toString i), "{}", created, 0, 0,
    none, none, created⟩

/-- A concrete state with a single pending category operation. -/
def exS2 : SyncState :=
  ⟨[exRow 1 "category" 10], [], [], [], [], none, some "user"⟩

/-- C2 counterexample: with one pending category operation and a failing
remote call, `syncCategories` leaves the state untouched — in particular
`updateRetryCount` is not invoked for the batched operation: its
`retry_count` stays 0 and no `last_error` is stored, contradicting the
claim that every operation in the failed batch has its retry count
incremented and its last error recorded. -/
theorem C2_counterexample :
    (syncCategories 5 none exS2).2.1 = exS2 ∧
      ¬ (∀ r ∈ pendingOps "category" (syncCategories 5 none exS2).2.1.sync_queue,
          0 < r.retry_count ∧ r.last_error ≠ none) := by
  constructor
  · rfl
  · decide

/-- C2 (amended): when a per-kind sync drains a non-empty pending batch and
the remote call fails, it returns `{ success: false, synced: 0 }`, marks no
operation synced and applies no snapshots — the whole state is exactly
unchanged.  In particular no retry bookkeeping happens either:
`updateRetryCount` is never invoked, so every operation keeps its
`retry_count` and `last_error` as they were. -/
theorem C2_failure_leaves_state_unchanged (now : Nat) (s : SyncState) :
    (pendingOps "category" s.sync_queue ≠ [] →
      syncCategories now none s =
        (⟨false, 0⟩, s,
          [Ev.queryQueue Kind.category, Ev.remoteCall Kind.category])) ∧
    (pendingOps "item" s.sync_queue ≠ [] →
      syncItems now none s =
        (⟨false, 0⟩, s, [Ev.queryQueue Kind.item, Ev.remoteCall Kind.item])) ∧
    (∀ u, s.userData = some u → billBatch s.bills ≠ [] →
      syncBills now none s =
        (⟨false, 0⟩, s, [Ev.readBills, Ev.remoteCall Kind.bill])) := by
  refine ⟨fun h => ?_, fun h => ?_, fun u hu h => ?_⟩
  · simp [syncCategories, List.isEmpty_iff, h]
  · simp [syncItems, List.isEmpty_iff, h]
  · simp [syncBills, hu, List.isEmpty_iff, h]

/-- C2 witness: the amended theorem applied at a concrete state with one
pending operation of each kind. -/
theorem C2_failure_witness :
    syncCategories 5 none
        ⟨[exRow 1 "category" 10, exRow 2 "item" 11], [], [],
          [⟨"b1", "p", 0, 3⟩], [], none, some "user"⟩ =
      (⟨false, 0⟩,
        ⟨[exRow 1 "category" 10, exRow 2 "item" 11], [], [],
          [⟨"b1", "p", 0, 3⟩], [], none, some "user"⟩,
        [Ev.queryQueue Kind.category, Ev.remoteCall Kind.category]) ∧
    syncItems 5 none
        ⟨[exRow 1 "category" 10, exRow 2 "item" 11], [], [],
          [⟨"b1", "p", 0, 3⟩], [], none, some "user"⟩ =
      (⟨false, 0⟩,
        ⟨[exRow 1 "category" 10, exRow 2 "item" 11], [], [],
          [⟨"b1", "p", 0, 3⟩], [], none, some "user"⟩,
        [Ev.queryQueue Kind.item, Ev.remoteCall Kind.item]) ∧
    syncBills 5 none
        ⟨[exRow 1 "category" 10, exRow 2 "item" 11], [], [],
          [⟨"b1", "p", 0, 3⟩], [], none, some "user"⟩ =
      (⟨false, 0⟩,
        ⟨[exRow 1 "category" 10, exRow 2 "item" 11], [], [],
          [⟨"b1", "p", 0, 3⟩], [], none, some "user"⟩,
        [Ev.readBills, Ev.remoteCall Kind.bill]) := by
  refine ⟨(C2_failure_leaves_state_unchanged 5 _).1 (by decide),
    (C2_failure_leaves_state_unchanged 5 _).2.1 (by decide),
    (C2_failure_leaves_state_unchanged 5 _).2.2 "user" rfl (by decide)⟩

/-- The entry built from one element of a sequence of sync passes
(`(now, categories, items, bills)`). -/
def entryOfP (p : Nat × Nat × Nat × Nat) : HistoryEntry :=
  historyEntry p.1 p.2.1 p.2.2.1 p.2.2.2

/-- Iterating `saveSyncToHistory` over a sequence of passes. -/
def runHistory (ps : List (Nat × Nat × Nat × Nat)) (h : List HistoryEntry) :
    List HistoryEntry :=
  ps.foldl (fun h p => saveSyncToHistory p.1 p.2.1 p.2.2.1 p.2.2.2 h) h

theorem saveSyncToHistory_eq_take (now c i b : Nat) (h : List HistoryEntry) :
    saveSyncToHistory now c i b h = (historyEntry now c i b :: h).take 20 := by
  unfold saveSyncToHistory
  split
  · rfl
  · rename_i hle
    rw [List.take_of_length_le]
    omega

theorem take_append_take (A B : List HistoryEntry) (n : Nat) :
    (A ++ B.take n).take n = (A ++ B).take n := by
  rw [List.take_append_eq_append_take, List.take_append_eq_append_take,
    List.take_take]
  congr 1
  congr 1
  omega

theorem runHistory_eq (ps : List (Nat × Nat × Nat × Nat))
    (h : List HistoryEntry) (hh : h.length ≤ 20) :
    runHistory ps h = ((ps.map entryOfP).reverse ++ h).take 20 := by
  induction ps generalizing h with
  | nil =>
    simp [runHistory, List.take_of_length_le hh]
  | cons p ps ih =>
    have step : runHistory (p :: ps) h =
        runHistory ps (saveSyncToHistory p.1 p.2.1 p.2.2.1 p.2.2.2 h) := rfl
    rw [step, ih _ (by rw [saveSyncToHistory_eq_take]; simp)]
    rw [saveSyncToHistory_eq_take, take_append_take]
    simp [entryOfP, List.append_assoc]

/-- C3: the history log enforces the 20-entry retention bound: appending
preserves the bound; when the log is full the evicted entry is exactly the
last stored one, i.e. the oldest by insertion order; after 25 appends from an
empty log exactly the 20 most recent entries remain, newest first; and when
passes are appended in increasing timestamp order the stored log is ordered
newest first (which is also the order the reader displays, since it sorts by
timestamp descending). -/
theorem C3_history_retention :
    (∀ now c i b (h : List HistoryEntry), h.length ≤ 20 →
      (saveSyncToHistory now c i b h).length ≤ 20) ∧
    (∀ now c i b (h : List HistoryEntry), h.length = 20 →
      saveSyncToHistory now c i b h = historyEntry now c i b :: h.dropLast) ∧
    (∀ ps : List (Nat × Nat × Nat × Nat), ps.length = 25 →
      runHistory ps [] = (ps.map entryOfP).reverse.take 20 ∧
        (runHistory ps []).length = 20) ∧
    (∀ ps : List (Nat × Nat × Nat × Nat),
      (ps.map (fun p => p.1)).Pairwise (· < ·) →
      (runHistory ps []).Pairwise (fun a b => b.timestamp < a.timestamp)) := by
  refine ⟨fun now c i b h hh => ?_, fun now c i b h hh => ?_,
    fun ps hps => ?_, fun ps hps => ?_⟩
  · rw [saveSyncToHistory_eq_take]
    simp
  · rw [saveSyncToHistory_eq_take]
    rw [show (20 : Nat) = 19 + 1 from rfl, List.take_succ_cons,
      List.dropLast_eq_take, hh]
  · have e := runHistory_eq ps [] (by simp)
    rw [List.append_nil] at e
    refine ⟨e, ?_⟩
    rw [e]
    simp [hps]
  · have e := runHistory_eq ps [] (by simp)
    rw [List.append_nil] at e
    rw [e]
    have hm : (ps.map entryOfP).Pairwise
        (fun a b => a.timestamp < b.timestamp) := by
      rw [List.pairwise_map]
      rw [List.pairwise_map] at hps
      exact hps
    exact List.Pairwise.sublist (List.take_sublist _ _)
      ((List.pairwise_reverse).2 hm)

/-- A concrete full history log of 20 entries. -/
def exH20 : List HistoryEntry := (List.range 20).map (fun n => historyEntry n 1 0 0)

/-- A concrete sequence of 25 sync passes with increasing timestamps. -/
def exPs : List (Nat × Nat × Nat × Nat) := (List.range 25).map (fun n => (n, 1, 0, 0))

/-- C3 witness: the retention theorem applied to a full 20-entry log and to a
concrete sequence of 25 passes. -/
theorem C3_history_witness :
    (saveSyncToHistory 30 1 0 0 exH20).length ≤ 20 ∧
    saveSyncToHistory 30 1 0 0 exH20 = historyEntry 30 1 0 0 :: exH20.dropLast ∧
    (runHistory exPs []).length = 20 ∧
    (runHistory exPs []).Pairwise (fun a b => b.timestamp < a.timestamp) := by
  refine ⟨C3_history_retention.1 30 1 0 0 exH20 (by decide),
    C3_history_retention.2.1 30 1 0 0 exH20 (by decide),
    (C3_history_retention.2.2.1 exPs (by decide)).2,
    C3_history_retention.2.2.2 exPs (by decide)⟩

/-- C7 counterexample: storing a pass with 2 categories, 0 items and 1 bill
produces a history entry whose stored `items` list omits the zero-count
"Items" kind entirely — the filter runs before storage, not only at display
time, contradicting the claim that zero-count kinds are never omitted from
the stored record. -/
theorem C7_counterexample :
    (saveSyncToHistory 7 2 0 1 []).head? = some (historyEntry 7 2 0 1) ∧
    (historyEntry 7 2 0 1).items.map HistoryItem.name = ["Categories", "Bills"] ∧
    "Items" ∉ (historyEntry 7 2 0 1).items.map HistoryItem.name := by
  refine ⟨rfl, rfl, by decide⟩

/-- C7 (amended): the stored history entry records exactly the kinds whose
synced count is positive (in the fixed order Categories, Items, Bills):
zero-count kinds are filtered out of the record itself when it is stored,
and the stored entry is always the new head of the log. -/
theorem C7_zero_counts_filtered_on_store (now c i b : Nat)
    (h : List HistoryEntry) :
    ((⟨"Categories", c⟩ : HistoryItem) ∈ (historyEntry now c i b).items ↔ 0 < c) ∧
    ((⟨"Items", i⟩ : HistoryItem) ∈ (historyEntry now c i b).items ↔ 0 < i) ∧
    ((⟨"Bills", b⟩ : HistoryItem) ∈ (historyEntry now c i b).items ↔ 0 < b) ∧
    (∀ it ∈ (historyEntry now c i b).items, 0 < it.count) ∧
    saveSyncToHistory now c i b h = historyEntry now c i b :: h.take 19 := by
  refine ⟨?_, ?_, ?_, ?_, ?_⟩
  · simp [historyEntry, List.mem_filter]
  · simp [historyEntry, List.mem_filter]
  · simp [historyEntry, List.mem_filter]
  · intro it hit
    simp only [historyEntry, List.mem_filter, decide_eq_true_eq] at hit
    exact hit.2
  · rw [saveSyncToHistory_eq_take,
      show (20 : Nat) = 19 + 1 from rfl, List.take_succ_cons]

/-- C8 counterexample: `updateRetryCount` (the code behind `recordFailure`)
is not idempotent — applying it twice to a queue holding the targeted
operation increments `retry_count` twice, leaving a different state than
applying it once. -/
theorem C8_counterexample :
    updateRetryCount 1 "err" (updateRetryCount 1 "err" [exRow 1 "category" 10]) ≠
      updateRetryCount 1 "err" [exRow 1 "category" 10] := by
  decide

/-- C8 (amended): `markOperationSynced` is idempotent (for the same ambient
timestamp, as both calls write the same constant values), but
`updateRetryCount` is not: each call adds one to `retry_count` of the
targeted row, so two calls with the same arguments increment by two where
one call increments by one. -/
theorem C8_mark_idempotent_retry_not (now operationId : Nat) (err : String)
    (q : List QueueRow) :
    markOperationSynced now operationId (markOperationSynced now operationId q) =
      markOperationSynced now operationId q ∧
    (∀ n r, q.get? n = some r → r.id = operationId →
      (updateRetryCount operationId err q).get? n =
        some { r with retry_count := r.retry_count + 1, last_error := some err } ∧
      (updateRetryCount operationId err
          (updateRetryCount operationId err q)).get? n =
        some { r with retry_count := r.retry_count + 2, last_error := some err }) := by
  constructor
  · rw [markOperationSynced, markOperationSynced, List.map_map]
    refine List.map_congr_left ?_
    intro r _
    by_cases h : r.id = operationId
    · simp [h, markRow]
    · simp [h]
  · intro n r hn hr
    constructor
    · rw [updateRetryCount, List.get?_map, hn]
      simp [hr]
    · rw [updateRetryCount, updateRetryCount, List.map_map, List.get?_map, hn]
      simp [hr]

/-- C8 witness: idempotence of `markOperationSynced` and double-increment of
`updateRetryCount` at a concrete one-row queue. -/
theorem C8_witness :
    markOperationSynced 5 1 (markOperationSynced 5 1 [exRow 1 "category" 10]) =
      markOperationSynced 5 1 [exRow 1 "category" 10] ∧
    (updateRetryCount 1 "err" (updateRetryCount 1 "err"
        [exRow 1 "category" 10])).get? 0 =
      some { exRow 1 "category" 10 with retry_count := 2, last_error := some "err" } := by
  refine ⟨(C8_mark_idempotent_retry_not 5 1 "err" [exRow 1 "category" 10]).1,
    ((C8_mark_idempotent_retry_not 5 1 "err" [exRow 1 "category" 10]).2 0
      (exRow 1 "category" 10) rfl rfl).2⟩

/-- A concrete queue holding one unsynced category operation and one unsynced
item operation. -/
def exQ6 : List QueueRow := [exRow 1 "category" 10, exRow 2 "item" 11]

/-- C6 counterexample: `getPendingOperations` takes no entity-kind parameter
and applies no kind filter; on a queue with one pending category operation
and one pending item operation it returns both, so it does not return
"exactly the operations with synced = 0 for that kind" for the category
kind. -/
theorem C6_counterexample :
    ¬ (∀ r ∈ getPendingOperations exQ6, r.entity_type = "category") := by
  decide

/-- C6 (amended): the per-kind drain query used by `syncCategories` /
`syncItems` returns exactly the unsynced operations of that kind — a
permutation of the kind-filtered unsynced rows, sorted ascending by
`created_at` (the enqueue timestamp) — while `getPendingOperations` returns
the unsynced operations of all kinds in the same order, with no kind
filter. -/
theorem C6_pending_queries (k : String) (q : List QueueRow) :
    (∀ r, r ∈ pendingOps k q ↔ r ∈ q ∧ r.entity_type = k ∧ r.synced = 0) ∧
    List.Sorted rowLE (pendingOps k q) ∧
    (pendingOps k q).Perm
      (q.filter (fun r => r.entity_type == k && r.synced == 0)) ∧
    (∀ r, r ∈ getPendingOperations q ↔ r ∈ q ∧ r.synced = 0) ∧
    List.Sorted rowLE (getPendingOperations q) ∧
    (getPendingOperations q).Perm (q.filter (fun r => r.synced == 0)) := by
  refine ⟨fun r => ?_, List.sorted_insertionSort rowLE _,
    List.perm_insertionSort rowLE _, fun r => ?_,
    List.sorted_insertionSort rowLE _, List.perm_insertionSort rowLE _⟩
  · rw [pendingOps, List.mem_insertionSort, List.mem_filter]
    simp [and_assoc]
  · rw [getPendingOperations, List.mem_insertionSort, List.mem_filter]
    simp

/-- C9: `syncBills` drains at most the 50 oldest unsynced bills per pass.
With a stored session, a successful remote call and (primary-key) distinct
bill ids: the reported count is the batch size, which never exceeds 50; the
batch consists of oldest bills — every batched bill's `created_at` is at most
that of every unsynced bill left out of the batch; the new bills table marks
exactly the batched ids synced and leaves every other row untouched; and
when more than 50 bills are pending, some bill remains unsynced for a later
pass. -/
theorem C9_bills_batch_limit (now : Nat) (resp : BillResp) (s : SyncState)
    (u : String) (hu : s.userData = some u) (hne : billBatch s.bills ≠ [])
    (hN : (s.bills.map (fun b => b.id)).Nodup) :
    (syncBills now (some resp) s).1 = ⟨true, (billBatch s.bills).length⟩ ∧
    (billBatch s.bills).length ≤ 50 ∧
    (∀ bb ∈ billBatch s.bills,
      ∀ cc ∈ ((s.bills.filter (fun b => b.is_synced == 0)).insertionSort
          billLE).drop 50, bb.created_at ≤ cc.created_at) ∧
    (syncBills now (some resp) s).2.1.bills =
      s.bills.map (fun b =>
        if ((billBatch s.bills).map (fun x => x.id)).contains b.id then
          { b with is_synced := 1 }
        else b) ∧
    (∀ b ∈ s.bills,
      ¬ ((billBatch s.bills).map (fun x => x.id)).contains b.id →
      b ∈ (syncBills now (some resp) s).2.1.bills) ∧
    (50 < (s.bills.filter (fun b => b.is_synced == 0)).length →
      ∃ b ∈ (syncBills now (some resp) s).2.1.bills, b.is_synced = 0) := by
  have hout : syncBills now (some resp) s =
      (⟨true, (billBatch s.bills).length⟩,
        { s with bills := s.bills.map (fun b =>
            if ((billBatch s.bills).map (fun x => x.id)).contains b.id then
              { b with is_synced := 1 }
            else b) },
        [Ev.readBills, Ev.remoteCall Kind.bill]) := by
    rw [syncBills, hu]
    simp [List.isEmpty_iff, hne]
  have hmem_unchanged : ∀ b ∈ s.bills,
      ¬ ((billBatch s.bills).map (fun x => x.id)).contains b.id →
      b ∈ (syncBills now (some resp) s).2.1.bills := by
    intro b hb hnc
    rw [hout]
    exact List.mem_map.mpr ⟨b, hb, if_neg hnc⟩
  refine ⟨by rw [hout], ?_, ?_, by rw [hout], hmem_unchanged, ?_⟩
  · rw [billBatch]
    simp [Nat.min_le_left]
  · intro bb hbb cc hcc
    have hs : List.Pairwise billLE
        ((s.bills.filter (fun b => b.is_synced == 0)).insertionSort billLE) :=
      List.sorted_insertionSort billLE _
    exact hs.rel_of_mem_take_of_mem_drop hbb hcc
  · intro hlen
    set pending := s.bills.filter (fun b => b.is_synced == 0) with hpend
    set sorted := pending.insertionSort billLE with hsort
    have hslen : sorted.length = pending.length := List.length_insertionSort _ _
    have hdrop : sorted.drop 50 ≠ [] := by
      have : 0 < (sorted.drop 50).length := by
        rw [List.length_drop, hslen]
        omega
      exact List.ne_nil_of_length_pos this
    obtain ⟨cc, hcc⟩ := List.exists_mem_of_ne_nil _ hdrop
    have hccs : cc ∈ sorted := List.mem_of_mem_drop hcc
    have hccp : cc ∈ pending := (List.mem_insertionSort billLE).mp hccs
    have hccb : cc ∈ s.bills := List.mem_of_mem_filter hccp
    have hccu : cc.is_synced = 0 := by
      have := List.of_mem_filter hccp
      simpa using this
    have hsub : List.Sublist (pending.map (fun b => b.id))
        (s.bills.map (fun b => b.id)) :=
      List.Sublist.map (fun b => b.id) (List.filter_sublist s.bills)
    have hpn : (pending.map (fun b => b.id)).Nodup := hN.sublist hsub
    have hsn : (sorted.map (fun b => b.id)).Nodup :=
      (((List.perm_insertionSort billLE pending).map
        (fun b => b.id)).nodup_iff).mpr hpn
    have hsplit : sorted.map (fun b => b.id) =
        (sorted.take 50).map (fun b => b.id) ++
          (sorted.drop 50).map (fun b => b.id) := by
      rw [← List.map_append, List.take_append_drop]
    rw [hsplit] at hsn
    have hdisj := (List.nodup_append.mp hsn).2.2
    have hccid : cc.id ∈ (sorted.drop 50).map (fun b => b.id) :=
      List.mem_map_of_mem _ hcc
    have hnc : ¬ ((billBatch s.bills).map (fun x => x.id)).contains cc.id := by
      intro hc
      have hm : cc.id ∈ (billBatch s.bills).map (fun x => x.id) := by
        simpa using hc
      have : cc.id ∈ (sorted.take 50).map (fun b => b.id) := hm
      exact hdisj this hccid
    exact ⟨cc, hmem_unchanged cc hccb hnc, hccu⟩

/-- 51 unsynced bills with distinct ids and increasing creation times. -/
def exBills : List BillRow :=
  (List.range 51).map (fun n => ⟨String.append "b" (toString n), "p", 0, n⟩)

/-- A concrete state with a stored session and 51 pending bills. -/
def exS9 : SyncState := ⟨[], [], [], exBills, [], none, some "u"⟩

/-- C9 witness: the batch-limit theorem applied at 51 pending bills — the
pass reports at most 50 synced and leaves some bill unsynced. -/
theorem C9_bills_witness :
    (syncBills 9 (some ⟨51⟩) exS9).1 = ⟨true, (billBatch exS9.bills).length⟩ ∧
    (billBatch exS9.bills).length ≤ 50 ∧
    (∃ b ∈ (syncBills 9 (some ⟨51⟩) exS9).2.1.bills, b.is_synced = 0) := by
  have h := C9_bills_batch_limit 9 ⟨51⟩ exS9 "u" rfl (by decide) (by decide)
  exact ⟨h.1, h.2.1, h.2.2.2.2.2 (by decide)⟩

theorem syncCategories_preserves (now : Nat) (rc : Option CatResp)
    (s : SyncState) :
    (syncCategories now rc s).2.1.items = s.items ∧
    (syncCategories now rc s).2.1.bills = s.bills ∧
    (syncCategories now rc s).2.1.userData = s.userData ∧
    (syncCategories now rc s).2.1.sync_history = s.sync_history ∧
    (syncCategories now rc s).2.1.last_sync_time = s.last_sync_time := by
  cases rc <;>
    by_cases he : (pendingOps "category" s.sync_queue).isEmpty <;>
    simp [syncCategories, he]

theorem syncItems_preserves (now : Nat) (ri : Option ItemResp) (s : SyncState) :
    (syncItems now ri s).2.1.categories = s.categories ∧
    (syncItems now ri s).2.1.bills = s.bills ∧
    (syncItems now ri s).2.1.userData = s.userData ∧
    (syncItems now ri s).2.1.sync_history = s.sync_history ∧
    (syncItems now ri s).2.1.last_sync_time = s.last_sync_time := by
  cases ri <;>
    by_cases he : (pendingOps "item" s.sync_queue).isEmpty <;>
    simp [syncItems, he]

theorem syncBills_preserves (now : Nat) (rb : Option BillResp) (s : SyncState) :
    (syncBills now rb s).2.1.sync_queue = s.sync_queue ∧
    (syncBills now rb s).2.1.categories = s.categories ∧
    (syncBills now rb s).2.1.items = s.items ∧
    (syncBills now rb s).2.1.userData = s.userData ∧
    (syncBills now rb s).2.1.sync_history = s.sync_history := by
  cases hu : s.userData <;> cases rb <;>
    by_cases he : (billBatch s.bills).isEmpty <;>
    simp [syncBills, hu, he]

theorem syncBills_no_session (now : Nat) (rb : Option BillResp) (s : SyncState)
    (h : s.userData = none) : syncBills now rb s = (⟨false, 0⟩, s, []) := by
  simp [syncBills, h]

theorem syncAll_success_eq (now : Nat) (rc : Option CatResp)
    (ri : Option ItemResp) (rb : Option BillResp) (s : SyncState) :
    (syncAll true now rc ri rb s).1.success =
      ((syncCategories now rc s).1.success &&
        (syncItems now ri (syncCategories now rc s).2.1).1.success &&
        (syncBills now rb
          (syncItems now ri (syncCategories now rc s).2.1).2.1).1.success) :=
  rfl

/-- C10: when no user session is stored (`getUserData()` returns null),
`syncBills` returns `{ success: false, synced: 0 }` before reading the bills
table or issuing any remote call (its state is untouched and its event trace
is empty), and consequently every online `syncAll` pass reports overall
failure — whatever the remote oracles answer and even when no operation of
any kind is pending. -/
theorem C10_no_session_fails (now : Nat) (rb : Option BillResp) (s : SyncState)
    (h : s.userData = none) :
    syncBills now rb s = (⟨false, 0⟩, s, []) ∧
    ∀ (rc : Option CatResp) (ri : Option ItemResp),
      (syncAll true now rc ri rb s).1.success = false := by
  refine ⟨syncBills_no_session now rb s h, fun rc ri => ?_⟩
  have h2 : (syncItems now ri (syncCategories now rc s).2.1).2.1.userData =
      none := by
    rw [(syncItems_preserves now ri (syncCategories now rc s).2.1).2.2.1,
      (syncCategories_preserves now rc s).2.2.1, h]
  rw [syncAll_success_eq, syncBills_no_session now rb _ h2]
  simp

/-- C10 witness: a concrete state with no stored session and nothing pending
still yields a failed pass. -/
theorem C10_no_session_witness :
    syncBills 3 none ⟨[], [], [], [], [], none, none⟩ =
      (⟨false, 0⟩, ⟨[], [], [], [], [], none, none⟩, []) ∧
    (syncAll true 3 none none none ⟨[], [], [], [], [], none, none⟩).1.success =
      false := by
  have h := C10_no_session_fails 3 none ⟨[], [], [], [], [], none, none⟩ rfl
  exact ⟨h.1, h.2 none none⟩

/-- Projects the entity kind out of a remote-call event. -/
def remoteKind (e : Ev) : Option Kind :=
  match e with
  | Ev.remoteCall k => some k
  | _ => none

theorem syncCategories_trace_remote (now : Nat) (rc : Option CatResp)
    (s : SyncState) :
    List.Sublist ((syncCategories now rc s).2.2.filterMap remoteKind)
      [Kind.category] := by
  cases rc <;> by_cases he : (pendingOps "category" s.sync_queue).isEmpty <;>
    simp [syncCategories, he, remoteKind, List.filterMap_map, Function.comp_def]

theorem syncItems_trace_remote (now : Nat) (ri : Option ItemResp)
    (s : SyncState) :
    List.Sublist ((syncItems now ri s).2.2.filterMap remoteKind)
      [Kind.item] := by
  cases ri <;> by_cases he : (pendingOps "item" s.sync_queue).isEmpty <;>
    simp [syncItems, he, remoteKind, List.filterMap_map, Function.comp_def]

theorem syncBills_trace_remote (now : Nat) (rb : Option BillResp)
    (s : SyncState) :
    List.Sublist ((syncBills now rb s).2.2.filterMap remoteKind)
      [Kind.bill] := by
  cases hu : s.userData <;> cases rb <;>
    by_cases he : (billBatch s.bills).isEmpty <;>
    simp [syncBills, hu, he, remoteKind]

theorem syncCategories_no_bill_call (now : Nat) (rc : Option CatResp)
    (s : SyncState) :
    Ev.remoteCall Kind.bill ∉ (syncCategories now rc s).2.2 := by
  cases rc <;> by_cases he : (pendingOps "category" s.sync_queue).isEmpty <;>
    simp [syncCategories, he]

theorem syncItems_no_bill_call (now : Nat) (ri : Option ItemResp)
    (s : SyncState) :
    Ev.remoteCall Kind.bill ∉ (syncItems now ri s).2.2 := by
  cases ri <;> by_cases he : (pendingOps "item" s.sync_queue).isEmpty <;>
    simp [syncItems, he]

theorem syncBills_no_markSynced (now : Nat) (rb : Option BillResp)
    (s : SyncState) (op : QueueRow) :
    Ev.markSynced op ∉ (syncBills now rb s).2.2 := by
  cases hu : s.userData <;> cases rb <;>
    by_cases he : (billBatch s.bills).isEmpty <;>
    simp [syncBills, hu, he]

/-- C4: an online `syncAll` pass reconciles the kinds in the fixed order
Category, then Item, then Bill: the pass's remote calls, in trace order,
form a sublist of `[category, item, bill]`; and every `markOperationSynced`
commit of the pass (in particular every item-kind commit) occurs strictly
before the bill-kind remote call is issued. -/
theorem C4_fixed_order (now : Nat) (rc : Option CatResp) (ri : Option ItemResp)
    (rb : Option BillResp) (s : SyncState) :
    List.Sublist ((syncAll true now rc ri rb s).2.2.filterMap remoteKind)
      [Kind.category, Kind.item, Kind.bill] ∧
    (∀ (i j : Nat) (op : QueueRow),
      ((syncAll true now rc ri rb s).2.2)[i]? = some (Ev.markSynced op) →
      ((syncAll true now rc ri rb s).2.2)[j]? = some (Ev.remoteCall Kind.bill) →
      i < j) := by
  have htr : (syncAll true now rc ri rb s).2.2 =
      (syncCategories now rc s).2.2 ++
        ((syncItems now ri (syncCategories now rc s).2.1).2.2 ++
          (syncBills now rb
            (syncItems now ri (syncCategories now rc s).2.1).2.1).2.2) := by
    simp [syncAll]
  constructor
  · rw [htr, List.filterMap_append, List.filterMap_append]
    exact List.Sublist.append (syncCategories_trace_remote now rc s)
      (List.Sublist.append (syncItems_trace_remote now ri _)
        (syncBills_trace_remote now rb _))
  · intro i j op hmark hrc
    rw [htr, ← List.append_assoc] at hmark hrc
    set A := (syncCategories now rc s).2.2 ++
      (syncItems now ri (syncCategories now rc s).2.1).2.2 with hA
    have hi : i < A.length := by
      by_contra hge
      push_neg at hge
      rw [List.getElem?_append_right hge] at hmark
      exact syncBills_no_markSynced now rb _ op (List.getElem?_mem hmark)
    have hj : A.length ≤ j := by
      by_contra hlt
      push_neg at hlt
      rw [List.getElem?_append_left hlt] at hrc
      rcases List.mem_append.mp (List.getElem?_mem hrc) with h | h
      · exact syncCategories_no_bill_call now rc s h
      · exact syncItems_no_bill_call now ri _ h
    omega

/-- A concrete state with one pending item operation and one pending bill. -/
def exS4 : SyncState :=
  ⟨[exRow 3 "item" 10], [], [], [⟨"b1", "p", 0, 4⟩], [], none, some "u"⟩

/-- C4 witness: in a concrete online pass whose trace has an item
`markSynced` commit at index 3 and the bill remote call at index 5, the
theorem yields 3 < 5 (and the remote calls appear as `[item, bill]`). -/
theorem C4_fixed_order_witness :
    ((syncAll true 7 (some ⟨0, []⟩) (some ⟨1, []⟩) (some ⟨1⟩) exS4).2.2)[3]? =
      some (Ev.markSynced (exRow 3 "item" 10)) ∧
    ((syncAll true 7 (some ⟨0, []⟩) (some ⟨1, []⟩) (some ⟨1⟩) exS4).2.2)[5]? =
      some (Ev.remoteCall Kind.bill) ∧
    (3 : Nat) < 5 := by
  refine ⟨by decide, by decide, ?_⟩
  exact (C4_fixed_order 7 (some ⟨0, []⟩) (some ⟨1, []⟩) (some ⟨1⟩) exS4).2 3 5
    (exRow 3 "item" 10) (by decide) (by decide)

theorem markRow_markRow (now : Nat) (r : QueueRow) :
    markRow now (markRow now r) = markRow now r := rfl

theorem markAll_eq_map (now : Nat) (ops q : List QueueRow) :
    markAll now ops q = q.map (fun r =>
      if r.id ∈ ops.map (fun o => o.id) then markRow now r else r) := by
  induction ops generalizing q with
  | nil => simp [markAll]
  | cons op ops ih =>
    have step : markAll now (op :: ops) q =
        markAll now ops (markOperationSynced now op.id q) := rfl
    rw [step, ih, markOperationSynced, List.map_map]
    refine List.map_congr_left ?_
    intro r _
    by_cases hid : r.id = op.id
    · simp [Function.comp_def, hid, markRow]
    · simp [Function.comp_def, hid]

theorem filter_map_congr {α : Type} (p : α → Bool) (f : α → α) :
    ∀ l : List α, (∀ r ∈ l, p (f r) = p r ∧ (p r = true → f r = r)) →
    (l.map f).filter p = l.filter p := by
  intro l
  induction l with
  | nil => simp
  | cons a l ih =>
    intro h
    have ha := h a (List.mem_cons_self a l)
    have hl := ih (fun r hr => h r (List.mem_cons_of_mem a hr))
    cases hp : p a with
    | true =>
      simp [List.filter_cons, ha.1, hp, hl, ha.2 hp]
    | false =>
      simp [List.filter_cons, ha.1, hp, hl]

theorem mem_pendingOps (k : String) (q : List QueueRow) (o : QueueRow) :
    o ∈ pendingOps k q ↔ o ∈ q ∧ o.entity_type = k ∧ o.synced = 0 := by
  rw [pendingOps, List.mem_insertionSort, List.mem_filter]
  simp [and_assoc]

theorem not_mem_other_ids (k k' : String) (q : List QueueRow)
    (hN : (q.map (fun r => r.id)).Nodup) (hkk : k ≠ k') (r : QueueRow)
    (hr : r ∈ q) (hk : r.entity_type = k) :
    r.id ∉ (pendingOps k' q).map (fun o => o.id) := by
  intro hid
  obtain ⟨o, ho, hoid⟩ := List.mem_map.mp hid
  obtain ⟨hoq, hok, _⟩ := (mem_pendingOps k' q o).mp ho
  have heq : o = r := List.inj_on_of_nodup_map hN hoq hr hoid
  rw [heq] at hok
  exact hkk (hk.symm.trans hok)

theorem pendingOps_map_mark (now : Nat) (k : String) (ids : List Nat)
    (q : List QueueRow) (h : ∀ r ∈ q, r.entity_type = k → r.id ∉ ids) :
    pendingOps k (q.map (fun r =>
      if r.id ∈ ids then markRow now r else r)) = pendingOps k q := by
  unfold pendingOps
  congr 1
  refine filter_map_congr _ _ q ?_
  intro r hr
  by_cases hc : r.id ∈ ids
  · have hpr : (r.entity_type == k && r.synced == 0) = false := by
      cases hp : (r.entity_type == k && r.synced == 0) with
      | false => rfl
      | true =>
        simp only [Bool.and_eq_true, beq_iff_eq] at hp
        exact absurd hc (h r hr hp.1)
    refine ⟨?_, ?_⟩
    · rw [hpr]
      simp [hc, markRow]
    · intro hp
      rw [hp] at hpr
      exact Bool.noConfusion hpr
  · simp [hc]

theorem pendingOps_markAll_ne (now : Nat) (k k' : String) (q : List QueueRow)
    (hN : (q.map (fun r => r.id)).Nodup) (hkk : k ≠ k') :
    pendingOps k (markAll now (pendingOps k' q) q) = pendingOps k q := by
  rw [markAll_eq_map]
  exact pendingOps_map_mark now k ((pendingOps k' q).map (fun o => o.id)) q
    (fun r hr hk => not_mem_other_ids k k' q hN hkk r hr hk)

theorem markAll_preserves_synced (now : Nat) (ops q : List QueueRow) :
    ∀ r ∈ q, r.synced = 1 →
    ∃ r' ∈ markAll now ops q, r'.id = r.id ∧ r'.synced = 1 := by
  intro r hr hs
  rw [markAll_eq_map]
  by_cases hc : r.id ∈ ops.map (fun o => o.id)
  · exact ⟨markRow now r, List.mem_map.mpr ⟨r, hr, if_pos hc⟩, rfl, rfl⟩
  · exact ⟨r, List.mem_map.mpr ⟨r, hr, if_neg hc⟩, rfl, hs⟩

theorem markAll_marks (now : Nat) (ops q : List QueueRow) :
    ∀ op ∈ ops, op ∈ q →
    ∃ r' ∈ markAll now ops q, r'.id = op.id ∧ r'.synced = 1 := by
  intro op hop hq
  rw [markAll_eq_map]
  have hc : op.id ∈ ops.map (fun o => o.id) := List.mem_map_of_mem _ hop
  exact ⟨markRow now op, List.mem_map.mpr ⟨op, hq, if_pos hc⟩, rfl, rfl⟩

theorem syncCategories_success_iff (now : Nat) (rc : Option CatResp)
    (s : SyncState) :
    (syncCategories now rc s).1.success = true ↔
      (pendingOps "category" s.sync_queue = [] ∨ rc ≠ none) := by
  cases rc <;> by_cases he : pendingOps "category" s.sync_queue = [] <;>
    simp [syncCategories, List.isEmpty_iff, he]

theorem syncItems_success_iff (now : Nat) (ri : Option ItemResp)
    (s : SyncState) :
    (syncItems now ri s).1.success = true ↔
      (pendingOps "item" s.sync_queue = [] ∨ ri ≠ none) := by
  cases ri <;> by_cases he : pendingOps "item" s.sync_queue = [] <;>
    simp [syncItems, List.isEmpty_iff, he]

theorem syncBills_success_iff (now : Nat) (rb : Option BillResp)
    (s : SyncState) :
    (syncBills now rb s).1.success = true ↔
      (s.userData ≠ none ∧ (billBatch s.bills = [] ∨ rb ≠ none)) := by
  cases hu : s.userData <;> cases rb <;>
    by_cases he : billBatch s.bills = [] <;>
    simp [syncBills, hu, List.isEmpty_iff, he]

theorem syncCategories_queue_cases (now : Nat) (rc : Option CatResp)
    (s : SyncState) :
    (syncCategories now rc s).2.1.sync_queue = s.sync_queue ∨
    (syncCategories now rc s).2.1.sync_queue =
      markAll now (pendingOps "category" s.sync_queue) s.sync_queue := by
  cases rc <;> by_cases he : pendingOps "category" s.sync_queue = [] <;>
    simp [syncCategories, List.isEmpty_iff, he]

theorem syncItems_queue_cases (now : Nat) (ri : Option ItemResp)
    (s : SyncState) :
    (syncItems now ri s).2.1.sync_queue = s.sync_queue ∨
    (syncItems now ri s).2.1.sync_queue =
      markAll now (pendingOps "item" s.sync_queue) s.sync_queue := by
  cases ri <;> by_cases he : pendingOps "item" s.sync_queue = [] <;>
    simp [syncItems, List.isEmpty_iff, he]

theorem syncItems_queue_some (now : Nat) (r : ItemResp) (s : SyncState)
    (hne : pendingOps "item" s.sync_queue ≠ []) :
    (syncItems now (some r) s).2.1.sync_queue =
      markAll now (pendingOps "item" s.sync_queue) s.sync_queue := by
  simp [syncItems, List.isEmpty_iff, hne]

theorem syncAll_queue_eq (now : Nat) (rc : Option CatResp)
    (ri : Option ItemResp) (rb : Option BillResp) (s : SyncState) :
    (syncAll true now rc ri rb s).2.1.sync_queue =
      (syncItems now ri (syncCategories now rc s).2.1).2.1.sync_queue := by
  rw [show (syncAll true now rc ri rb s).2.1 =
    (if ((syncCategories now rc s).1.success &&
          (syncItems now ri (syncCategories now rc s).2.1).1.success &&
          (syncBills now rb
            (syncItems now ri (syncCategories now rc s).2.1).2.1).1.success) &&
        (decide (0 < (syncCategories now rc s).1.synced) ||
          decide (0 <
            (syncItems now ri (syncCategories now rc s).2.1).1.synced) ||
          decide (0 <
            (syncBills now rb
              (syncItems now ri
                (syncCategories now rc s).2.1).2.1).1.synced)) then
      { (syncBills now rb
          (syncItems now ri (syncCategories now rc s).2.1).2.1).2.1 with
        sync_history :=
          saveSyncToHistory now (syncCategories now rc s).1.synced
            (syncItems now ri (syncCategories now rc s).2.1).1.synced
            (syncBills now rb
              (syncItems now ri (syncCategories now rc s).2.1).2.1).1.synced
            (syncBills now rb
              (syncItems now ri
                (syncCategories now rc s).2.1).2.1).2.1.sync_history,
        last_sync_time := some now }
    else
      (syncBills now rb
        (syncItems now ri (syncCategories now rc s).2.1).2.1).2.1) from by
    simp [syncAll]]
  split <;>
    simp [(syncBills_preserves now rb
      (syncItems now ri (syncCategories now rc s).2.1).2.1).1]

/-- C5: the result of an online `syncAll` pass has `success` equal to the
conjunction of the three per-kind outcomes (characterized here in terms of
the initial state and the remote oracles: each kind succeeds iff it had
nothing pending or its remote call answered, bills additionally requiring a
stored session); and a failure of one kind does not roll back work durably
committed in the same pass: every queue row already synced stays synced, and
whenever the item remote call answered, every pending item operation ends
the pass marked synced — whatever the outcome of the bill phase. -/
theorem C5_success_aggregation (now : Nat) (rc : Option CatResp)
    (ri : Option ItemResp) (rb : Option BillResp) (s : SyncState)
    (hN : (s.sync_queue.map (fun r => r.id)).Nodup) :
    ((syncAll true now rc ri rb s).1.success = true ↔
      ((pendingOps "category" s.sync_queue = [] ∨ rc ≠ none) ∧
        (pendingOps "item" s.sync_queue = [] ∨ ri ≠ none) ∧
        s.userData ≠ none ∧ (billBatch s.bills = [] ∨ rb ≠ none))) ∧
    (∀ r ∈ s.sync_queue, r.synced = 1 →
      ∃ r' ∈ (syncAll true now rc ri rb s).2.1.sync_queue,
        r'.id = r.id ∧ r'.synced = 1) ∧
    (∀ ir, ri = some ir → ∀ op ∈ pendingOps "item" s.sync_queue,
      ∃ r' ∈ (syncAll true now rc ri rb s).2.1.sync_queue,
        r'.id = op.id ∧ r'.synced = 1) := by
  have hpi : pendingOps "item"
      (syncCategories now rc s).2.1.sync_queue =
      pendingOps "item" s.sync_queue := by
    rcases syncCategories_queue_cases now rc s with hq | hq
    · rw [hq]
    · rw [hq]
      exact pendingOps_markAll_ne now "item" "category" s.sync_queue hN
        (by decide)
  refine ⟨?_, ?_, ?_⟩
  · rw [syncAll_success_eq, Bool.and_eq_true, Bool.and_eq_true,
      syncCategories_success_iff, syncItems_success_iff,
      syncBills_success_iff, hpi,
      (syncItems_preserves now ri (syncCategories now rc s).2.1).2.2.1,
      (syncCategories_preserves now rc s).2.2.1,
      (syncItems_preserves now ri (syncCategories now rc s).2.1).2.1,
      (syncCategories_preserves now rc s).2.1, and_assoc]
  · intro r hr hs
    rw [syncAll_queue_eq]
    have step1 : ∃ r1 ∈ (syncCategories now rc s).2.1.sync_queue,
        r1.id = r.id ∧ r1.synced = 1 := by
      rcases syncCategories_queue_cases now rc s with hq | hq
      · exact ⟨r, by rw [hq]; exact hr, rfl, hs⟩
      · obtain ⟨r1, hr1, hid1, hs1⟩ :=
          markAll_preserves_synced now (pendingOps "category" s.sync_queue)
            s.sync_queue r hr hs
        exact ⟨r1, by rw [hq]; exact hr1, hid1, hs1⟩
    obtain ⟨r1, hr1, hid1, hs1⟩ := step1
    rcases syncItems_queue_cases now ri (syncCategories now rc s).2.1 with
      hq | hq
    · exact ⟨r1, by rw [hq]; exact hr1, hid1, hs1⟩
    · obtain ⟨r2, hr2, hid2, hs2⟩ :=
        markAll_preserves_synced now
          (pendingOps "item" (syncCategories now rc s).2.1.sync_queue)
          (syncCategories now rc s).2.1.sync_queue r1 hr1 hs1
      exact ⟨r2, by rw [hq]; exact hr2, hid2.trans hid1, hs2⟩
  · intro ir hri op hop
    rw [syncAll_queue_eq, hri]
    have hops : op ∈ pendingOps "item"
        (syncCategories now rc s).2.1.sync_queue := by
      rw [hpi]
      exact hop
    have hopne : pendingOps "item"
        (syncCategories now rc s).2.1.sync_queue ≠ [] :=
      List.ne_nil_of_mem hops
    rw [syncItems_queue_some now ir (syncCategories now rc s).2.1 hopne]
    exact markAll_marks now _ _ op hops
      ((mem_pendingOps "item" (syncCategories now rc s).2.1.sync_queue
        op).mp hops).1

/-- A concrete state with one synced category row, one pending item
operation, a pending bill and a stored session. -/
def exS5 : SyncState :=
  ⟨[{ exRow 1 "category" 8 with synced := 1 }, exRow 2 "item" 9], [], [],
    [⟨"b1", "p", 0, 4⟩], [], none, some "u"⟩

/-- C5 witness: at a concrete state where the item remote call answers but
the bill remote call fails, the pass reports overall failure, the
already-synced category row stays synced, and the pending item operation is
durably committed despite the bill failure. -/
theorem C5_success_witness :
    (syncAll true 9 none (some ⟨1, []⟩) none exS5).1.success = false ∧
    (∃ r' ∈ (syncAll true 9 none (some ⟨1, []⟩) none exS5).2.1.sync_queue,
      r'.id = 1 ∧ r'.synced = 1) ∧
    (∃ r' ∈ (syncAll true 9 none (some ⟨1, []⟩) none exS5).2.1.sync_queue,
      r'.id = 2 ∧ r'.synced = 1) := by
  have h := C5_success_aggregation 9 none (some ⟨1, []⟩) none exS5 (by decide)
  refine ⟨?_, ?_, ?_⟩
  · have hiff := h.1
    cases hsu : (syncAll true 9 none (some ⟨1, []⟩) none exS5).1.success with
    | false => rfl
    | true =>
      rw [hsu] at hiff
      have := hiff.mp rfl
      have hb : billBatch exS5.bills = [] ∨ (none : Option BillResp) ≠ none :=
        this.2.2.2
      rcases hb with hb | hb
      · exact absurd hb (by decide)
      · exact absurd rfl hb
  · exact h.2.1 { exRow 1 "category" 8 with synced := 1 }
      (List.mem_cons_self _ _) rfl
  · exact h.2.2 ⟨1, []⟩ rfl (exRow 2 "item" 9) (by decide)

/-- C6 witness: the amended query theorem instantiated on the concrete
two-kind queue — the pending category operation is returned by the per-kind
drain query, and both unsynced rows are returned by `getPendingOperations`. -/
theorem C6_pending_witness :
    exRow 1 "category" 10 ∈ pendingOps "category" exQ6 ∧
    exRow 2 "item" 11 ∉ pendingOps "category" exQ6 ∧
    exRow 2 "item" 11 ∈ getPendingOperations exQ6 := by
  refine ⟨((C6_pending_queries "category" exQ6).1 (exRow 1 "category" 10)).mpr
      (by decide),
    fun hmem => ?_,
    ((C6_pending_queries "category" exQ6).2.2.2.1 (exRow 2 "item" 11)).mpr
      (by decide)⟩
  have := ((C6_pending_queries "category" exQ6).1 (exRow 2 "item" 11)).mp hmem
  exact absurd this.2.1 (by decide)

/-- C7 witness: the amended storage theorem instantiated at a pass with 2
categories, 0 items and 1 bill — the positive-count kinds are present in the
stored entry and every stored count is positive. -/
theorem C7_zero_counts_witness :
    (⟨"Categories", 2⟩ : HistoryItem) ∈ (historyEntry 7 2 0 1).items ∧
    (0 : Nat) < 2 := by
  refine ⟨((C7_zero_counts_filtered_on_store 7 2 0 1 []).1).mpr (by decide),
    ((C7_zero_counts_filtered_on_store 7 2 0 1 []).2.2.2.1)
      ⟨"Categories", 2⟩ (((C7_zero_counts_filtered_on_store 7 2 0 1 []).1).mpr
        (by decide))⟩

end POSSync
